import Mathlib

/-!
Verification of the tm-monitor / tm-bench tools repository.

The development shallowly embeds the Go sources:
* the error-correcting-code (checksum) utility (`keys` package, ECC interface
  with the `NoECC`, `CRC32` and `CRC64` implementations);
* the `Node` component (event callbacks, reconnect backoff, validator polling);
* the `Monitor` orchestrator (registration, per-node listener, validator
  refresh loop) together with the `Network` aggregate.

Machine integers (`uint32`, `uint64`, byte) are embedded as `Nat` with
explicit `% 2 ^ w` / bound reasoning where overflow matters; `float64`
latencies are embedded as `ℚ`; fallible calls return `Except` or take the
call's outcome as an explicit parameter.
-/

namespace ECC

/-- Big-endian serialisation of a `uint32`, mirroring Go's
`binary.BigEndian.PutUint32`: four bytes, most significant first.
The `% 256` mirrors Go's `byte(...)` truncation. -/
def putUint32 (v : Nat) : List Nat :=
  [v / 16777216 % 256, v / 65536 % 256, v / 256 % 256, v % 256]

/-- Big-endian deserialisation of four bytes, mirroring Go's
`binary.BigEndian.Uint32`. -/
def getUint32 (b : List Nat) : Nat :=
  match b with
  | [b0, b1, b2, b3] => b0 * 16777216 + b1 * 65536 + b2 * 256 + b3
  | _ => 0

/-- Big-endian serialisation of a `uint64`, mirroring Go's
`binary.BigEndian.PutUint64`. -/
def putUint64 (v : Nat) : List Nat :=
  [v / 72057594037927936 % 256, v / 281474976710656 % 256,
   v / 1099511627776 % 256, v / 4294967296 % 256,
   v / 16777216 % 256, v / 65536 % 256, v / 256 % 256, v % 256]

/-- Big-endian deserialisation of eight bytes, mirroring Go's
`binary.BigEndian.Uint64`. -/
def getUint64 (b : List Nat) : Nat :=
  match b with
  | [b0, b1, b2, b3, b4, b5, b6, b7] =>
      b0 * 72057594037927936 + b1 * 281474976710656 + b2 * 1099511627776 +
      b3 * 4294967296 + b4 * 16777216 + b5 * 65536 + b6 * 256 + b7
  | _ => 0

/-- One bit-step of the reflected CRC table construction: Go's
`if crc&1 == 1 { crc = (crc >> 1) ^ poly } else { crc >>= 1 }`. -/
def crcStep (poly crc : Nat) : Nat :=
  if crc % 2 = 1 then (crc / 2) ^^^ poly else crc / 2

/-- Table entry `i` of the CRC table for `poly`: eight `crcStep`s starting
from `i`, mirroring Go's `simplePopulateTable` inner loop
(`hash/crc32` and `hash/crc64` use the same construction). -/
def crcTableEntry (poly i : Nat) : Nat :=
  (List.range 8).foldl (fun crc _ => crcStep poly crc) i

/-- One byte-step of the table-driven CRC update: Go's
`crc = tab[byte(crc)^v] ^ (crc >> 8)` (the table index is
`(crc ^ v) & 0xff`, the shift is division by 256). -/
def crcByteStep (poly crc v : Nat) : Nat :=
  crcTableEntry poly ((crc ^^^ v) % 256) ^^^ (crc / 256)

/-- CRC-32 checksum of `data` under polynomial `poly`, mirroring Go's
`crc32.Checksum`: complement, fold the byte steps, complement
(`^crc` on a `uint32` is xor with `0xFFFFFFFF`). -/
def crc32Checksum (poly : Nat) (data : List Nat) : Nat :=
  (data.foldl (crcByteStep poly) (0 ^^^ 4294967295)) ^^^ 4294967295

/-- CRC-64 checksum of `data` under polynomial `poly`, mirroring Go's
`crc64.Checksum` (`^crc` on a `uint64` is xor with `2^64 - 1`). -/
def crc64Checksum (poly : Nat) (data : List Nat) : Nat :=
  (data.foldl (crcByteStep poly) (0 ^^^ 18446744073709551615)) ^^^ 18446744073709551615

/-- The `crc32.IEEE` polynomial constant. -/
def ieeePoly : Nat := 0xedb88320

/-- The `crc64.ISO` polynomial constant. -/
def isoPoly : Nat := 0xD800000000000000

/-- Effective CRC-32 polynomial, mirroring `CRC32.getTable`: a zero `Poly`
field falls back to `crc32.IEEE`. -/
def effPoly32 (poly : Nat) : Nat := if poly = 0 then ieeePoly else poly

/-- Effective CRC-64 polynomial, mirroring `CRC64.getTable`: a zero `Poly`
field falls back to `crc64.ISO`. -/
def effPoly64 (poly : Nat) : Nat := if poly = 0 then isoPoly else poly

/-- Go `NoECC.AddECC`: identity. -/
def NoECC.AddECC (input : List Nat) : List Nat := input

/-- Go `NoECC.CheckECC`: identity, never errors. -/
def NoECC.CheckECC (input : List Nat) : Except String (List Nat) := .ok input

/-- Go `CRC32.AddECC`: append the 4 big-endian checksum bytes to the input. -/
def CRC32.AddECC (poly : Nat) (input : List Nat) : List Nat :=
  input ++ putUint32 (crc32Checksum (effPoly32 poly) input)

/-- Go `CRC32.CheckECC`: reject inputs of length at most `crc32.Size` (4),
split off the trailing 4 bytes, recompute the checksum over the head and
compare. -/
def CRC32.CheckECC (poly : Nat) (input : List Nat) : Except String (List Nat) :=
  if input.length ≤ 4 then .error "input too short, no checksum present"
  else
    let cut := input.length - 4
    let data := input.take cut
    let check := input.drop cut
    let crc := getUint32 check
    let calcCrc := crc32Checksum (effPoly32 poly) data
    if crc = calcCrc then .ok data else .error "Checksum does not match"

/-- Go `CRC64.AddECC`: append the 8 big-endian checksum bytes to the input. -/
def CRC64.AddECC (poly : Nat) (input : List Nat) : List Nat :=
  input ++ putUint64 (crc64Checksum (effPoly64 poly) input)

/-- Go `CRC64.CheckECC`: reject inputs of length at most `crc64.Size` (8),
split off the trailing 8 bytes, recompute the checksum over the head and
compare. -/
def CRC64.CheckECC (poly : Nat) (input : List Nat) : Except String (List Nat) :=
  if input.length ≤ 8 then .error "input too short, no checksum present"
  else
    let cut := input.length - 8
    let data := input.take cut
    let check := input.drop cut
    let crc := getUint64 check
    let calcCrc := crc64Checksum (effPoly64 poly) data
    if crc = calcCrc then .ok data else .error "Checksum does not match"

end ECC

namespace TMMonitor


/-- Go `maxRestarts` constant of the `monitor` package. -/
def maxRestarts : Nat := 25

/-- State of a `monitor.Node`: the mutable observed fields of the Go struct.
`pubKey` embeds `crypto.PubKey`, with `none` for the empty key; the three
`...Bound` flags record whether Monitor has bound the corresponding output
channel (a nil check in Go). Validators are embedded by their public key. -/
structure Node where
  online : Bool
  height : Nat
  blockLatency : ℚ
  isValidator : Bool
  pubKey : Option Nat
  blockChBound : Bool
  blockLatencyChBound : Bool
  disconnectChBound : Bool
deriving DecidableEq

/-- Go `newBlockCallback`: store the header's height in `n.Height` and, when
the block channel is bound, forward the header (embedded by its height).
Returns the updated node and the values sent on the block channel. -/
def newBlockCallback (n : Node) (h : Nat) : Node × List Nat :=
  ({ n with height := h }, if n.blockChBound then [h] else [])

/-- Go `latencyCallback`: store `latency / 1000000.0` (ns to ms) in
`n.BlockLatency` and, when the latency channel is bound, forward `latency`
(the raw argument) on it. Returns the updated node and the values sent on
the latency channel. -/
def latencyCallback (n : Node) (latency : ℚ) : Node × List ℚ :=
  ({ n with blockLatency := latency / 1000000 },
   if n.blockLatencyChBound then [latency] else [])

/-- Go `Node.RestartEventMeterBackoff`, parametrised by the outcome of each
`em.Start()` call (`startOk k` = the `k`-th restart attempt succeeds).
The loop sleeps `2^attempt` seconds, tries to restart, and on failure
increments `attempt`, exiting with an error once `attempt > maxRestarts`.
The first argument is fuel: the guard caps the loop at `maxRestarts + 1`
iterations (attempt values `0..25`), so the driver's fuel of `26` is exact
and the `0` case is unreachable. Returns the list of slept delays in
seconds and `true` for a nil error, `false` for "Reached max restarts". -/
def restartBackoffAux (startOk : Nat → Bool) : Nat → Nat → List Nat × Bool
  | 0, _ => ([], false)
  | fuel + 1, attempt =>
    let d := 2 ^ attempt
    if startOk attempt then ([d], true)
    else if maxRestarts < attempt + 1 then ([d], false)
    else
      let r := restartBackoffAux startOk fuel (attempt + 1)
      (d :: r.1, r.2)

/-- Entry point of the backoff procedure: attempt counter starts at 0. -/
def RestartEventMeterBackoff (startOk : Nat → Bool) : List Nat × Bool :=
  restartBackoffAux startOk (maxRestarts + 1) 0

/-- Go `disconnectCallback`: mark the node offline, send `true` on the bound
disconnect channel, then run the backoff procedure; on its success mark the
node online again and send `false`; on its failure leave the node offline.
Returns the updated node and the values sent on the disconnect channel. -/
def disconnectCallback (startOk : Nat → Bool) (n : Node) : Node × List Bool :=
  let n1 := { n with online := false }
  let sent1 := if n.disconnectChBound then [true] else []
  let r := RestartEventMeterBackoff startOk
  if r.2 then
    ({ n1 with online := true },
     sent1 ++ (if n.disconnectChBound then [false] else []))
  else (n1, sent1)

/-- Go `Node.validators`: on RPC failure return height 0, an empty list and
the error; on success return the queried block height and validator list.
The RPC call's outcome is the explicit `queryResult` parameter. -/
def validators (queryResult : Except String (Nat × List Nat)) :
    Nat × List Nat × Option String :=
  match queryResult with
  | .error e => (0, [], some e)
  | .ok (h, vs) => (h, vs, none)

/-- Go `Node.NumValidators`: call `validators`; on error return `(0, 0, err)`,
otherwise the height and the length of the validator list. -/
def NumValidators (queryResult : Except String (Nat × List Nat)) :
    Nat × Nat × Option String :=
  let r := validators queryResult
  match r.2.2 with
  | some e => (0, 0, some e)
  | none => (r.1, r.2.1.length, none)

/-- Go `Node.getPubKey`: return the cached key if non-empty; otherwise issue
the "status" query (outcome `statusQ`), cache and return its key, or
propagate the error. -/
def getPubKey (n : Node) (statusQ : Option Nat) : Node × Option Nat :=
  match n.pubKey with
  | some k => (n, some k)
  | none =>
    match statusQ with
    | some k => ({ n with pubKey := some k }, some k)
    | none => (n, none)

/-- Loop body of Go `Node.checkIsValidator`: for each validator `v` of the
queried set, call `getPubKey` (the `k`-th uncached call's outcome is drawn
from `sqs`) and set `IsValidator` to `true` when `v`'s key equals the own
key. The flag is never assigned `false`. -/
def checkIsValidatorAux (sqs : List (Option Nat)) (n : Node) :
    List Nat → Node
  | [] => n
  | v :: vs =>
    let r := getPubKey n (sqs.headD none)
    let n2 := match r.2 with
      | some key => if v = key then { r.1 with isValidator := true } else r.1
      | none => r.1
    checkIsValidatorAux sqs.tail n2 vs

/-- Go `Node.checkIsValidator`: on a failed "validators" query only log; on
success run the loop over the returned validator set. -/
def checkIsValidator (valQuery : Option (List Nat)) (sqs : List (Option Nat))
    (n : Node) : Node :=
  match valQuery with
  | some vs => checkIsValidatorAux sqs n vs
  | none => n

/-- The Node operations that mutate a node's state, each parametrised by the
outcome of its external calls. -/
inductive NodeOp
  | stop
  | newBlock (h : Nat)
  | latencySample (l : ℚ)
  | disconnect (startOk : Nat → Bool)
  | checkValidator (valQuery : Option (List Nat)) (sqs : List (Option Nat))

/-- Effect of one Node operation on the node state: `Stop` marks offline,
the callbacks and `checkIsValidator` act as defined above. -/
def applyNodeOp (n : Node) : NodeOp → Node
  | .stop => { n with online := false }
  | .newBlock h => (newBlockCallback n h).1
  | .latencySample l => (latencyCallback n l).1
  | .disconnect s => (disconnectCallback s n).1
  | .checkValidator q sqs => checkIsValidator q sqs n

/-- A concrete node state used to instantiate theorems. -/
def testNode : Node :=
  { online := false, height := 0, blockLatency := 0, isValidator := false,
    pubKey := none, blockChBound := true, blockLatencyChBound := true,
    disconnectChBound := true }

/-- Keys of an association list (the name component of each entry). -/
def keys (l : List (String × Bool)) : List String := l.map Prod.fst

/-- Whether an association list has an entry for `k`. -/
def hasKey (l : List (String × Bool)) (k : String) : Bool :=
  l.any (fun p => p.1 == k)

/-- Go map assignment on an association list: overwrite the value of every
entry for `k` (there is at most one). -/
def setVal (l : List (String × Bool)) (k : String) (v : Bool) : List (String × Bool) :=
  l.map (fun p => if p.1 == k then (p.1, v) else p)

/-- Modelled from the spec: the `Network` aggregate (its source file
`network.go` is not under src/; only `monitor.go` calls it). Per spec §3 it
is a mapping from node name to a per-node status record (online flag) plus
the global `height` (max height observed) and `numValidators` (last
accepted validator-set size) fields, and the last block latency sample. -/
structure Network where
  nodes : List (String × Bool)
  height : Nat
  numValidators : Nat
  blockLatency : ℚ
deriving DecidableEq

/-- Modelled from the spec: `Network.NewNode` — "admit a node (create status
entry, default offline)"; Go map assignment creates or overwrites the
entry. -/
def Network.NewNode (net : Network) (name : String) : Network :=
  { net with nodes := if hasKey net.nodes name then setVal net.nodes name false
                      else net.nodes ++ [(name, false)] }

/-- Modelled from the spec: `Network.NodeDeleted` — "remove a node (delete
entry)"; Go map delete removes the entry for the key. -/
def Network.NodeDeleted (net : Network) (name : String) : Network :=
  { net with nodes := net.nodes.filter (fun p => !(p.1 == name)) }

/-- Modelled from the spec: `Network.NodeIsOnline` — "mark a node online". -/
def Network.NodeIsOnline (net : Network) (name : String) : Network :=
  { net with nodes := setVal net.nodes name true }

/-- Modelled from the spec: `Network.NodeIsDown` — "mark a node down". -/
def Network.NodeIsDown (net : Network) (name : String) : Network :=
  { net with nodes := setVal net.nodes name false }

/-- Modelled from the spec: `Network.NewBlock` — "ingest a new block
(advance global height to the max of current and incoming — never
regresses)"; the header is embedded by its height. -/
def Network.NewBlock (net : Network) (h : Nat) : Network :=
  { net with height := max net.height h }

/-- Modelled from the spec: `Network.NewBlockLatency` — "ingest a latency
sample". -/
def Network.NewBlockLatency (net : Network) (l : ℚ) : Network :=
  { net with blockLatency := l }

/-- The online flag stored in the Network entry for `name`, if any. -/
def Network.statusOf (net : Network) (name : String) : Option Bool :=
  (net.nodes.find? (fun p => p.1 == name)).map Prod.snd

/-- State of the `Monitor` orchestrator: the tracked node list `m.Nodes`
(nodes embedded by their unique name), the `Network` aggregate, and the
key set of the `m.nodeQuit` map. -/
structure MonitorState where
  nodes : List String
  network : Network
  nodeQuit : List String
deriving DecidableEq

/-- Go `NewMonitor`: empty node list, fresh Network, empty nodeQuit map. -/
def initMonitor : MonitorState :=
  { nodes := [], network := { nodes := [], height := 0, numValidators := 0, blockLatency := 0 },
    nodeQuit := [] }

/-- Go `Monitor.Monitor(n)`: append `n` to `m.Nodes`, bind the three
channels, start the node; on start failure return the error THERE (with the
node already appended); on success create the Network entry, create the
nodeQuit entry and spawn the listener. `startErr` is the outcome of
`n.Start()`. -/
def monitorFn (s : MonitorState) (name : String) (startErr : Option String) :
    MonitorState × Option String :=
  let s1 := { s with nodes := s.nodes ++ [name] }
  match startErr with
  | some e => (s1, some e)
  | none =>
    ({ s1 with
        network := s1.network.NewNode name,
        nodeQuit := if s1.nodeQuit.contains name then s1.nodeQuit
                    else s1.nodeQuit ++ [name] }, none)

/-- Go `Monitor.Unmonitor`'s removal of `n.Name` from `m.Nodes`: look up the
first index `i` with that name (Go's `NodeByName` linear scan), overwrite
slot `i` with the last element and truncate by one (swap-with-last).  When
the name is absent Go would index with -1 and panic; all theorems assume
membership. -/
def swapRemove (l : List String) (name : String) : List String :=
  (l.set (l.indexOf name) (l.getLastD "")).dropLast

/-- Go `Monitor.Unmonitor(n)`: delete the Network entry, stop the node,
close and delete the nodeQuit entry, swap-remove from `m.Nodes`. -/
def unmonitorFn (s : MonitorState) (name : String) : MonitorState :=
  { nodes := swapRemove s.nodes name,
    network := s.network.NodeDeleted name,
    nodeQuit := s.nodeQuit.filter (fun x => !(x == name)) }

/-- A registration (`Monitor`, with its start outcome) or a removal
(`Unmonitor`) operation. -/
inductive MOp
  | mon (name : String) (startOk : Bool)
  | unmon (name : String)

/-- Effect of one Monitor operation on the monitor state. -/
def applyMOp (s : MonitorState) : MOp → MonitorState
  | .mon name ok => (monitorFn s name (if ok then none else some "start failed")).1
  | .unmon name => unmonitorFn s name

/-- Run a sequence of Monitor operations from a state. -/
def runOps (s : MonitorState) (ops : List MOp) : MonitorState :=
  ops.foldl applyMOp s

/-- Well-formed operation sequence: every registration's start succeeds and
uses a name not currently tracked (spec §3: names are unique among
currently-monitored nodes), and every removal names a tracked node (Go
panics otherwise). -/
def wellFormed : MonitorState → List MOp → Bool
  | _, [] => true
  | s, (.mon name ok) :: rest =>
      ok && !(s.nodes.contains name) && wellFormed (applyMOp s (.mon name ok)) rest
  | s, (.unmon name) :: rest =>
      s.nodes.contains name && wellFormed (applyMOp s (.unmon name)) rest

/-- The 1:1 correspondence invariant: the tracked node list has no
duplicates, and both the Network entry keys and the nodeQuit keys are a
permutation of it (hence each tracked name has exactly one entry, no
orphans, no duplicates). -/
def Inv (s : MonitorState) : Prop :=
  s.nodes.Nodup ∧ (keys s.network.nodes).Perm s.nodes ∧ s.nodeQuit.Perm s.nodes

/-- Go `nodeLivenessTimeout` constant: 5 seconds. -/
def nodeLivenessTimeout : Nat := 5

/-- The five mutually-exclusive sources of Go `Monitor.listen`'s select: the
quit signal, a block header (embedded by its height), a latency sample, a
connectivity change, and the `time.After(nodeLivenessTimeout)` branch.
`timeout` fires exactly when none of the other four sources produced a
value within the 5-second window re-armed at the start of the iteration. -/
inductive ListenEvent
  | quit
  | block (h : Nat)
  | latency (l : ℚ)
  | connectivity (disconnected : Bool)
  | timeout

/-- Body of Go `Monitor.listen` for one select outcome: `none` means the
loop returns (only on quit); otherwise the Network mutation performed. -/
def listenStep (name : String) (net : Network) : ListenEvent → Option Network
  | .quit => none
  | .block h => some ((net.NewBlock h).NodeIsOnline name)
  | .latency l => some ((net.NewBlockLatency l).NodeIsOnline name)
  | .connectivity d => some (if d then net.NodeIsDown name else net.NodeIsOnline name)
  | .timeout => some (net.NodeIsDown name)

/-- One executed iteration of Go `Monitor.updateNumValidatorLoop` in which
the chosen node's `NumValidators` query ran with outcome `q`: the loop
assigns `height, num, err = n.NumValidators()` (so a failed query yields
height 0 and num 0) and then overwrites `m.Network.NumValidators` whenever
`m.Network.Height <= height`, regardless of `err`. -/
def updateNumValidatorsIter (net : Network) (q : Except String (Nat × List Nat)) :
    Network :=
  let r := NumValidators q
  if net.height ≤ r.1 then { net with numValidators := r.2.1 } else net

/-- A concrete Network with one admitted node, used to instantiate
theorems. -/
def testNet : Network :=
  { nodes := [("a", true)], height := 10, numValidators := 4, blockLatency := 0 }

end TMMonitor

namespace ECC

lemma crcStep_lt {w poly crc : Nat} (hp : poly < 2 ^ w) (hc : crc < 2 ^ (w + 1)) :
    crcStep poly crc < 2 ^ w := by
  unfold crcStep
  have hdiv : crc / 2 < 2 ^ w := by
    have := Nat.div_lt_div_of_lt_of_dvd (by exact Dvd.intro_left (2 ^ w) rfl) hc
    simpa [Nat.pow_succ, Nat.mul_div_cancel] using Nat.div_lt_of_lt_mul
      (by simpa [Nat.pow_succ, Nat.mul_comm] using hc)
  split
  · exact Nat.lt_of_lt_of_le (Nat.xor_lt_two_pow hdiv hp) (le_refl _)
  · exact hdiv

lemma crcTableEntry_lt {w poly : Nat} (hp : poly < 2 ^ w) (hw : 8 ≤ w) (i : Nat)
    (hi : i < 256) : crcTableEntry poly i < 2 ^ w := by
  have h8 : (256 : Nat) ≤ 2 ^ w := by
    calc (256 : Nat) = 2 ^ 8 := by norm_num
    _ ≤ 2 ^ w := Nat.pow_le_pow_right (by norm_num) hw
  have step : ∀ c, c < 2 ^ w → crcStep poly c < 2 ^ w := by
    intro c hc
    exact crcStep_lt hp (lt_of_lt_of_le hc (by
      have : (2 : Nat) ^ w ≤ 2 ^ (w + 1) := Nat.pow_le_pow_right (by norm_num) (by omega)
      exact this))
  have : ∀ n c, c < 2 ^ w →
      (List.range n).foldl (fun crc _ => crcStep poly crc) c < 2 ^ w := by
    intro n
    induction n with
    | zero => intro c hc; simpa using hc
    | succ k ih =>
        intro c hc
        rw [List.range_succ, List.foldl_append]
        exact step _ (ih c hc)
  exact this 8 i (lt_of_lt_of_le hi h8)

lemma crcByteStep_lt {w poly crc v : Nat} (hp : poly < 2 ^ w) (hw : 8 ≤ w)
    (hc : crc < 2 ^ w) : crcByteStep poly crc v < 2 ^ w :=
  Nat.xor_lt_two_pow (crcTableEntry_lt hp hw _ (Nat.mod_lt _ (by norm_num)))
    (lt_of_le_of_lt (Nat.div_le_self _ _) hc)

lemma crc32Checksum_lt (poly : Nat) (hp : poly < 2 ^ 32) (data : List Nat) :
    crc32Checksum poly data < 2 ^ 32 := by
  unfold crc32Checksum
  have hfold : ∀ (l : List Nat) (c : Nat), c < 2 ^ 32 →
      l.foldl (crcByteStep poly) c < 2 ^ 32 := by
    intro l
    induction l with
    | nil => intro c hc; simpa using hc
    | cons x xs ih =>
        intro c hc
        exact ih _ (crcByteStep_lt hp (by norm_num) hc)
  have h0 : (0 ^^^ 4294967295 : Nat) < 2 ^ 32 := by norm_num
  exact Nat.xor_lt_two_pow (hfold data _ h0) (by norm_num)

lemma crc64Checksum_lt (poly : Nat) (hp : poly < 2 ^ 64) (data : List Nat) :
    crc64Checksum poly data < 2 ^ 64 := by
  unfold crc64Checksum
  have hfold : ∀ (l : List Nat) (c : Nat), c < 2 ^ 64 →
      l.foldl (crcByteStep poly) c < 2 ^ 64 := by
    intro l
    induction l with
    | nil => intro c hc; simpa using hc
    | cons x xs ih =>
        intro c hc
        exact ih _ (crcByteStep_lt hp (by norm_num) hc)
  have h0 : (0 ^^^ 18446744073709551615 : Nat) < 2 ^ 64 := by norm_num
  exact Nat.xor_lt_two_pow (hfold data _ h0) (by norm_num)

lemma getUint32_putUint32 {v : Nat} (hv : v < 2 ^ 32) :
    getUint32 (putUint32 v) = v := by
  simp only [putUint32, getUint32]
  have h32 : v < 4294967296 := by norm_num at hv ⊢; omega
  omega

lemma getUint64_putUint64 {v : Nat} (hv : v < 2 ^ 64) :
    getUint64 (putUint64 v) = v := by
  simp only [putUint64, getUint64]
  have h64 : v < 18446744073709551616 := by norm_num at hv ⊢; omega
  omega

lemma putUint32_length (v : Nat) : (putUint32 v).length = 4 := rfl

lemma putUint64_length (v : Nat) : (putUint64 v).length = 8 := rfl

lemma effPoly32_lt {poly : Nat} (hp : poly < 2 ^ 32) : effPoly32 poly < 2 ^ 32 := by
  unfold effPoly32 ieeePoly
  split
  · norm_num
  · exact hp

lemma effPoly64_lt {poly : Nat} (hp : poly < 2 ^ 64) : effPoly64 poly < 2 ^ 64 := by
  unfold effPoly64 isoPoly
  split
  · norm_num
  · exact hp

lemma crc32_roundtrip {poly : Nat} (hp : poly < 2 ^ 32) {b : List Nat}
    (hb : b ≠ []) : CRC32.CheckECC poly (CRC32.AddECC poly b) = .ok b := by
  have hlen : (CRC32.AddECC poly b).length = b.length + 4 := by
    simp [CRC32.AddECC, putUint32_length]
  have hpos : 0 < b.length := List.length_pos.mpr hb
  unfold CRC32.CheckECC
  rw [hlen]
  rw [if_neg (by omega)]
  have hcut : b.length + 4 - 4 = b.length := by omega
  rw [hcut]
  unfold CRC32.AddECC
  have htake : List.take b.length (b ++ putUint32 (crc32Checksum (effPoly32 poly) b)) = b :=
    List.take_left b _
  have hdrop : List.drop b.length (b ++ putUint32 (crc32Checksum (effPoly32 poly) b)) =
      putUint32 (crc32Checksum (effPoly32 poly) b) := List.drop_left b _
  simp only [htake, hdrop]
  rw [getUint32_putUint32 (crc32Checksum_lt _ (effPoly32_lt hp) b)]
  simp

lemma crc64_roundtrip {poly : Nat} (hp : poly < 2 ^ 64) {b : List Nat}
    (hb : b ≠ []) : CRC64.CheckECC poly (CRC64.AddECC poly b) = .ok b := by
  have hlen : (CRC64.AddECC poly b).length = b.length + 8 := by
    simp [CRC64.AddECC, putUint64_length]
  have hpos : 0 < b.length := List.length_pos.mpr hb
  unfold CRC64.CheckECC
  rw [hlen]
  rw [if_neg (by omega)]
  have hcut : b.length + 8 - 8 = b.length := by omega
  rw [hcut]
  unfold CRC64.AddECC
  have htake : List.take b.length (b ++ putUint64 (crc64Checksum (effPoly64 poly) b)) = b :=
    List.take_left b _
  have hdrop : List.drop b.length (b ++ putUint64 (crc64Checksum (effPoly64 poly) b)) =
      putUint64 (crc64Checksum (effPoly64 poly) b) := List.drop_left b _
  simp only [htake, hdrop]
  rw [getUint64_putUint64 (crc64Checksum_lt _ (effPoly64_lt hp) b)]
  simp

end ECC

/-- C10 counterexample: for the empty byte slice, the CRC32 round-trip fails.
`AddECC []` produces exactly the 4 checksum bytes, and `CheckECC` rejects any
input of length `≤ crc32.Size` with "input too short", so
`CheckECC (AddECC [])` is an error, not `ok []` (the zero default polynomial
is used here). -/
theorem C10_roundtrip_counterexample :
    ECC.CRC32.CheckECC 0 (ECC.CRC32.AddECC 0 []) =
      Except.error "input too short, no checksum present" := rfl

/-- C10 (amended): `NoECC` round-trips every byte slice; `CRC32` (resp.
`CRC64`) appends 4 (resp. 8) checksum bytes and round-trips every NON-EMPTY
byte slice for every polynomial fitting the Go field type, the zero default
included.  For the empty slice the CRC variants fail the
`len(input) <= Size` guard and return an "input too short" error
(`C10_roundtrip_counterexample`). -/
theorem C10_ecc_roundtrip :
    (∀ b : List Nat, ECC.NoECC.CheckECC (ECC.NoECC.AddECC b) = .ok b) ∧
    (∀ (poly : Nat) (b : List Nat), poly < 2 ^ 32 → b ≠ [] →
      (ECC.CRC32.AddECC poly b).length = b.length + 4 ∧
      ECC.CRC32.CheckECC poly (ECC.CRC32.AddECC poly b) = .ok b) ∧
    (∀ (poly : Nat) (b : List Nat), poly < 2 ^ 64 → b ≠ [] →
      (ECC.CRC64.AddECC poly b).length = b.length + 8 ∧
      ECC.CRC64.CheckECC poly (ECC.CRC64.AddECC poly b) = .ok b) := by
  refine ⟨fun b => rfl, fun poly b hp hb => ⟨?_, ECC.crc32_roundtrip hp hb⟩,
    fun poly b hp hb => ⟨?_, ECC.crc64_roundtrip hp hb⟩⟩
  · simp [ECC.CRC32.AddECC, ECC.putUint32_length]
  · simp [ECC.CRC64.AddECC, ECC.putUint64_length]

/-- C10 witness: the amended round-trip evaluated at the zero default
polynomial and the one-byte slice `[42]`. -/
theorem C10_ecc_roundtrip_witness :
    ECC.CRC32.CheckECC 0 (ECC.CRC32.AddECC 0 [42]) = .ok [42] ∧
    ECC.CRC64.CheckECC 0 (ECC.CRC64.AddECC 0 [42]) = .ok [42] :=
  ⟨(C10_ecc_roundtrip.2.1 0 [42] (by norm_num) (by simp)).2,
   (C10_ecc_roundtrip.2.2 0 [42] (by norm_num) (by simp)).2⟩

namespace TMMonitor

lemma getPubKey_isValidator (n : Node) (q : Option Nat) :
    (getPubKey n q).1.isValidator = n.isValidator := by
  unfold getPubKey
  cases n.pubKey <;> cases q <;> rfl

lemma getPubKey_of_cached {n : Node} {k : Nat} (h : n.pubKey = some k)
    (q : Option Nat) : getPubKey n q = (n, some k) := by
  unfold getPubKey
  rw [h]

lemma checkIsValidatorAux_mono :
    ∀ (vs : List Nat) (sqs : List (Option Nat)) (n : Node),
      n.isValidator = true → (checkIsValidatorAux sqs n vs).isValidator = true := by
  intro vs
  induction vs with
  | nil => intro sqs n h; simpa [checkIsValidatorAux] using h
  | cons v rest ih =>
      intro sqs n h
      unfold checkIsValidatorAux
      apply ih
      rcases hE : getPubKey n (sqs.headD none) with ⟨n1, res⟩
      have hg : n1.isValidator = n.isValidator := by
        have hgi := getPubKey_isValidator n (sqs.headD none)
        rw [hE] at hgi
        exact hgi
      cases res with
      | none => simpa [hg] using h
      | some key =>
          by_cases hv : v = key
          · simp [hv]
          · simp [hv, hg, h]

lemma checkIsValidatorAux_sets :
    ∀ (vs : List Nat) (sqs : List (Option Nat)) (n : Node) (k : Nat),
      n.pubKey = some k → k ∈ vs →
      (checkIsValidatorAux sqs n vs).isValidator = true := by
  intro vs
  induction vs with
  | nil => intro sqs n k _ hmem; cases hmem
  | cons v rest ih =>
      intro sqs n k hkey hmem
      unfold checkIsValidatorAux
      rw [getPubKey_of_cached hkey]
      by_cases hv : v = k
      · subst hv
        simp only [if_pos rfl]
        exact checkIsValidatorAux_mono rest _ _ rfl
      · have hmem' : k ∈ rest := by
          rcases List.mem_cons.mp hmem with h | h
          · exact absurd h.symm hv
          · exact h
        simp only [if_neg hv]
        exact ih _ n k hkey hmem'

lemma applyNodeOp_isValidator_mono (n : Node) (op : NodeOp)
    (h : n.isValidator = true) : (applyNodeOp n op).isValidator = true := by
  cases op with
  | stop => simpa [applyNodeOp] using h
  | newBlock hh => simpa [applyNodeOp, newBlockCallback] using h
  | latencySample l => simpa [applyNodeOp, latencyCallback] using h
  | disconnect s =>
      show (disconnectCallback s n).1.isValidator = true
      unfold disconnectCallback
      cases hr : (RestartEventMeterBackoff s).2 <;> simp [hr, h]
  | checkValidator q sqs =>
      cases q with
      | none => simpa [applyNodeOp, checkIsValidator] using h
      | some vs =>
          unfold applyNodeOp checkIsValidator
          exact checkIsValidatorAux_mono vs sqs n h

lemma restartBackoffAux_delays (startOk : Nat → Bool) :
    ∀ (fuel attempt : Nat), ∃ m, m ≤ fuel ∧
      (restartBackoffAux startOk fuel attempt).1 =
        (List.range m).map (fun j => 2 ^ (attempt + j)) := by
  intro fuel
  induction fuel with
  | zero => intro attempt; exact ⟨0, le_refl _, by simp [restartBackoffAux]⟩
  | succ f ih =>
      intro attempt
      unfold restartBackoffAux
      have hone : List.map (fun j => 2 ^ (attempt + j)) (List.range 1) =
          [2 ^ attempt] := rfl
      by_cases hs : startOk attempt = true
      · refine ⟨1, by omega, ?_⟩
        simp [hs, hone]
      · rw [Bool.not_eq_true] at hs
        by_cases hg : maxRestarts < attempt + 1
        · refine ⟨1, by omega, ?_⟩
          simp [hs, hg, hone]
        · obtain ⟨m, hm, hdelays⟩ := ih (attempt + 1)
          refine ⟨m + 1, by omega, ?_⟩
          simp only [hs, hg, if_false, Bool.false_eq_true, if_neg]
          rw [hdelays]
          rw [List.range_succ_eq_map, List.map_cons, List.map_map]
          refine congrArg₂ _ (by simp) (congrArg₂ _ ?_ rfl)
          funext j
          show 2 ^ (attempt + 1 + j) = 2 ^ (attempt + (j + 1))
          refine congrArg _ (by omega)

end TMMonitor

/-- C5 counterexample: with every restart attempt failing, the backoff
procedure sleeps 26 delays (attempt values 0..25, the last delay being
`2^25` seconds), not the 25 delays `1, 2, ..., 2^24` the claim predicts
before reconnection stops. -/
theorem C5_backoff_counterexample :
    (TMMonitor.RestartEventMeterBackoff (fun _ => false)).1 ≠
      (List.range 25).map (fun k => 2 ^ k) ∧
    (TMMonitor.RestartEventMeterBackoff (fun _ => false)).1.length = 26 := by
  decide

/-- C5 (amended): the delay before restart attempt `k` is `2^k` seconds for
every schedule of attempt outcomes (the slept delays always form the
initial segment `1, 2, 4, ..., 2^(m-1)` for some `m ≤ 26`); under
persistent failure the attempts are `0..25` with delays `1, ..., 2^25`,
after which the procedure returns the "Reached max restarts" error and
makes no further attempt, and `disconnectCallback` then leaves the node
offline. -/
theorem C5_backoff_schedule :
    (∀ startOk : Nat → Bool, ∃ m, m ≤ 26 ∧
      (TMMonitor.RestartEventMeterBackoff startOk).1 =
        (List.range m).map (fun k => 2 ^ k)) ∧
    ((TMMonitor.RestartEventMeterBackoff (fun _ => false)).1 =
        (List.range 26).map (fun k => 2 ^ k) ∧
      (TMMonitor.RestartEventMeterBackoff (fun _ => false)).2 = false) ∧
    (∀ n : TMMonitor.Node,
      (TMMonitor.disconnectCallback (fun _ => false) n).1.online = false) := by
  refine ⟨?_, by decide, fun n => rfl⟩
  intro startOk
  obtain ⟨m, hm, hdelays⟩ := TMMonitor.restartBackoffAux_delays startOk 26 0
  exact ⟨m, hm, by simpa using hdelays⟩

/-- C7: the `IsValidator` flag is monotone across every sequence of Node
operations (no operation ever resets it to `false`), and
`checkIsValidator` sets it to `true` whenever the node's own (cached)
public key appears in the successfully queried validator set. -/
theorem C7_isValidator_monotone :
    (∀ (n : TMMonitor.Node) (ops : List TMMonitor.NodeOp),
      n.isValidator = true →
      (ops.foldl TMMonitor.applyNodeOp n).isValidator = true) ∧
    (∀ (n : TMMonitor.Node) (k : Nat) (vs : List Nat)
      (sqs : List (Option Nat)), n.pubKey = some k → k ∈ vs →
      (TMMonitor.checkIsValidator (some vs) sqs n).isValidator = true) := by
  constructor
  · intro n ops
    induction ops generalizing n with
    | nil => intro h; simpa using h
    | cons op rest ih =>
        intro h
        rw [List.foldl_cons]
        exact ih _ (TMMonitor.applyNodeOp_isValidator_mono n op h)
  · intro n k vs sqs hkey hmem
    exact TMMonitor.checkIsValidatorAux_sets vs sqs n k hkey hmem

/-- C7 witness: a node with the flag already set keeps it across a stop and
a block event, and a node whose cached key 5 appears in the queried set
`[5]` gets the flag set. -/
theorem C7_isValidator_monotone_witness :
    (([TMMonitor.NodeOp.stop, TMMonitor.NodeOp.newBlock 7].foldl
        TMMonitor.applyNodeOp
        { TMMonitor.testNode with isValidator := true }).isValidator = true) ∧
    (TMMonitor.checkIsValidator (some [5]) []
        { TMMonitor.testNode with pubKey := some 5 }).isValidator = true :=
  ⟨C7_isValidator_monotone.1 _ _ rfl,
   C7_isValidator_monotone.2 _ 5 [5] [] rfl (by simp)⟩

/-- C8 counterexample: for the 2,000,000 ns sample, the cached latency is
the converted 2 ms, but the value forwarded on the bound latency channel is
the raw 2,000,000, not the converted value the claim predicts. -/
theorem C8_latency_counterexample :
    (TMMonitor.latencyCallback TMMonitor.testNode 2000000).1.blockLatency = 2 ∧
    (TMMonitor.latencyCallback TMMonitor.testNode 2000000).2 = [2000000] ∧
    (TMMonitor.latencyCallback TMMonitor.testNode 2000000).2 ≠
      [(TMMonitor.latencyCallback TMMonitor.testNode 2000000).1.blockLatency] := by
  refine ⟨?_, rfl, ?_⟩
  · norm_num [TMMonitor.latencyCallback]
  · norm_num [TMMonitor.latencyCallback, TMMonitor.testNode]

/-- C8 (amended): the latency callback stores the sample converted from
nanoseconds to milliseconds (`s / 1000000`) in the node's `BlockLatency`
field, and forwards the RAW nanosecond sample (not the converted value) on
the latency channel when one is bound. -/
theorem C8_latencyCallback_behaviour :
    ∀ (n : TMMonitor.Node) (s : ℚ),
      (TMMonitor.latencyCallback n s).1.blockLatency = s / 1000000 ∧
      (TMMonitor.latencyCallback n s).2 =
        (if n.blockLatencyChBound then [s] else []) :=
  fun n s => ⟨rfl, rfl⟩

/-- C9: `validators` returns the height and the validator list with a nil
error on a successful query, and height 0 with an empty list alongside the
error on failure; `NumValidators` returns the height and the list's length
exactly on success and `(0, 0, err)` on failure. -/
theorem C9_numValidators_result :
    ∀ (h : Nat) (vs : List Nat) (e : String),
      TMMonitor.validators (.ok (h, vs)) = (h, vs, none) ∧
      TMMonitor.NumValidators (.ok (h, vs)) = (h, vs.length, none) ∧
      TMMonitor.validators (.error e) = (0, [], some e) ∧
      TMMonitor.NumValidators (.error e) = (0, 0, some e) :=
  fun h vs e => ⟨rfl, rfl, rfl, rfl⟩

/-- C2 counterexample: when `Start` fails, `Monitor.Monitor` returns the
error but the node HAS been appended to the tracked node list (the append
precedes the start call), so the monitor's state is not unchanged. -/
theorem C2_start_failure_counterexample :
    (TMMonitor.monitorFn TMMonitor.initMonitor "a" (some "boom")).2 = some "boom" ∧
    "a" ∈ (TMMonitor.monitorFn TMMonitor.initMonitor "a" (some "boom")).1.nodes := by
  constructor
  · rfl
  · simp [TMMonitor.monitorFn, TMMonitor.initMonitor]

/-- C2 (amended): when `Start` fails, `Monitor.Monitor` propagates exactly
that error, creates no Network entry and no nodeQuit entry — but leaves the
node appended to the tracked node list (partially registered). -/
theorem C2_start_failure_partial_registration :
    ∀ (s : TMMonitor.MonitorState) (name e : String),
      (TMMonitor.monitorFn s name (some e)).2 = some e ∧
      (TMMonitor.monitorFn s name (some e)).1.nodes = s.nodes ++ [name] ∧
      (TMMonitor.monitorFn s name (some e)).1.network = s.network ∧
      (TMMonitor.monitorFn s name (some e)).1.nodeQuit = s.nodeQuit :=
  fun s name e => ⟨rfl, rfl, rfl, rfl⟩

/-- C3: ingesting a block of height `h` sets Network's global height to
`max previous h`, and across every sequence of ingestions the height never
decreases. -/
theorem C3_height_monotone :
    (∀ (net : TMMonitor.Network) (h : Nat),
      (net.NewBlock h).height = max net.height h) ∧
    (∀ (net : TMMonitor.Network) (hs : List Nat),
      net.height ≤ (hs.foldl TMMonitor.Network.NewBlock net).height) := by
  refine ⟨fun net h => rfl, fun net hs => ?_⟩
  induction hs generalizing net with
  | nil => simp
  | cons h rest ih =>
      rw [List.foldl_cons]
      exact le_trans (le_max_left _ _) (ih (net.NewBlock h))

/-- C4 counterexample: with Network at height 0 holding a validator count
of 4, a FAILED `NumValidators` query (which yields height 0 and count 0)
passes the `Network.Height <= height` test and overwrites the stored count
with 0 — the claim says a failed query leaves it unchanged. -/
theorem C4_failed_query_counterexample :
    (TMMonitor.updateNumValidatorsIter
        { nodes := [], height := 0, numValidators := 4, blockLatency := 0 }
        (.error "rpc failed")).numValidators = 0 ∧
    (TMMonitor.updateNumValidatorsIter
        { nodes := [], height := 0, numValidators := 4, blockLatency := 0 }
        (.error "rpc failed")).numValidators ≠ 4 := by
  constructor
  · rfl
  · intro h
    simp [TMMonitor.updateNumValidatorsIter, TMMonitor.NumValidators,
      TMMonitor.validators] at h

/-- C4 (amended): the validator-refresh iteration overwrites
`Network.NumValidators` exactly when the height produced by the query — 0
when the query failed — is at least Network's current height, regardless of
query success.  Hence: a successful query with height below Network's
leaves the count unchanged, a successful query at or above it overwrites
with the returned count, a failed query leaves the count unchanged only
when Network's height is positive, and a failed query at height 0
overwrites the count with 0. -/
theorem C4_freshness_gate :
    ∀ (net : TMMonitor.Network) (q : Except String (Nat × List Nat)),
      (∀ h vs, q = .ok (h, vs) → h < net.height →
        TMMonitor.updateNumValidatorsIter net q = net) ∧
      (∀ h vs, q = .ok (h, vs) → net.height ≤ h →
        (TMMonitor.updateNumValidatorsIter net q).numValidators = vs.length) ∧
      (∀ e, q = .error e → 0 < net.height →
        TMMonitor.updateNumValidatorsIter net q = net) ∧
      (∀ e, q = .error e → net.height = 0 →
        (TMMonitor.updateNumValidatorsIter net q).numValidators = 0) := by
  intro net q
  refine ⟨?_, ?_, ?_, ?_⟩
  · intro h vs hq hlt
    subst hq
    simp [TMMonitor.updateNumValidatorsIter, TMMonitor.NumValidators,
      TMMonitor.validators, Nat.not_le.mpr hlt]
  · intro h vs hq hle
    subst hq
    simp [TMMonitor.updateNumValidatorsIter, TMMonitor.NumValidators,
      TMMonitor.validators, hle]
  · intro e hq hpos
    subst hq
    simp [TMMonitor.updateNumValidatorsIter, TMMonitor.NumValidators,
      TMMonitor.validators, Nat.not_le.mpr hpos]
  · intro e hq h0
    subst hq
    simp [TMMonitor.updateNumValidatorsIter, TMMonitor.NumValidators,
      TMMonitor.validators, h0]

/-- C4 witness: the amended behaviour evaluated on concrete inputs —
`testNet` is at height 10 with count 4; a success at height 9 keeps 4, a
success at height 10 with 7 validators stores 7, a failure keeps 4, and a
failure at height 0 stores 0. -/
theorem C4_freshness_gate_witness :
    TMMonitor.updateNumValidatorsIter TMMonitor.testNet (.ok (9, [1])) =
      TMMonitor.testNet ∧
    (TMMonitor.updateNumValidatorsIter TMMonitor.testNet
      (.ok (10, [1, 2, 3, 4, 5, 6, 7]))).numValidators = 7 ∧
    TMMonitor.updateNumValidatorsIter TMMonitor.testNet (.error "x") =
      TMMonitor.testNet ∧
    (TMMonitor.updateNumValidatorsIter
      { nodes := [], height := 0, numValidators := 4, blockLatency := 0 }
      (.error "x")).numValidators = 0 :=
  ⟨(C4_freshness_gate TMMonitor.testNet _).1 9 [1] rfl (by norm_num [TMMonitor.testNet]),
   (C4_freshness_gate TMMonitor.testNet _).2.1 10 _ rfl (by norm_num [TMMonitor.testNet]),
   (C4_freshness_gate TMMonitor.testNet _).2.2.1 "x" rfl (by norm_num [TMMonitor.testNet]),
   (C4_freshness_gate _ _).2.2.2 "x" rfl rfl⟩

namespace TMMonitor

lemma find?_setVal (k : String) (v : Bool) :
    ∀ l : List (String × Bool), hasKey l k = true →
      ((setVal l k v).find? (fun p => p.1 == k)).map Prod.snd = some v := by
  intro l
  induction l with
  | nil => intro h; simp [hasKey] at h
  | cons p t ih =>
      intro h
      by_cases hp : p.1 = k
      · rw [show setVal (p :: t) k v = (p.1, v) :: setVal t k v from by
          simp [setVal, hp]]
        rw [List.find?_cons_of_pos _ (by simpa using hp)]
        rfl
      · rw [show setVal (p :: t) k v = p :: setVal t k v from by
          simp [setVal, hp]]
        rw [List.find?_cons_of_neg _ (by simpa using hp)]
        apply ih
        simpa [hasKey, hp] using h

lemma statusOf_NodeIsOnline (net : Network) (name : String)
    (h : hasKey net.nodes name = true) :
    (net.NodeIsOnline name).statusOf name = some true := by
  unfold Network.NodeIsOnline Network.statusOf
  exact find?_setVal name true net.nodes h

lemma statusOf_NodeIsDown (net : Network) (name : String)
    (h : hasKey net.nodes name = true) :
    (net.NodeIsDown name).statusOf name = some false := by
  unfold Network.NodeIsDown Network.statusOf
  exact find?_setVal name false net.nodes h

end TMMonitor

/-- C6: on a listener iteration's select outcome — liveness timeout (which
fires exactly when no block header, latency sample, connectivity change or
shutdown signal arrived within the 5-second window since the iteration
began): the node is marked down; a block header or latency sample: the node
is marked online (the block also advancing the global height); a
connectivity change: `true` marks the node down and `false` marks it
online; and the loop returns on the shutdown signal and on nothing else. -/
theorem C6_listener_step :
    ∀ (net : TMMonitor.Network) (name : String),
      TMMonitor.hasKey net.nodes name = true →
      (TMMonitor.listenStep name net .timeout = some (net.NodeIsDown name) ∧
        (net.NodeIsDown name).statusOf name = some false) ∧
      (∀ h : Nat, ∃ n2, TMMonitor.listenStep name net (.block h) = some n2 ∧
        n2.statusOf name = some true ∧ n2.height = max net.height h) ∧
      (∀ l : ℚ, ∃ n2, TMMonitor.listenStep name net (.latency l) = some n2 ∧
        n2.statusOf name = some true) ∧
      ((∃ n2, TMMonitor.listenStep name net (.connectivity true) = some n2 ∧
        n2.statusOf name = some false) ∧
       (∃ n2, TMMonitor.listenStep name net (.connectivity false) = some n2 ∧
        n2.statusOf name = some true)) ∧
      (∀ e : TMMonitor.ListenEvent,
        TMMonitor.listenStep name net e = none ↔ e = .quit) := by
  intro net name hkey
  refine ⟨⟨rfl, TMMonitor.statusOf_NodeIsDown net name hkey⟩, ?_, ?_, ⟨?_, ?_⟩, ?_⟩
  · intro h
    refine ⟨(net.NewBlock h).NodeIsOnline name, rfl, ?_, rfl⟩
    exact TMMonitor.statusOf_NodeIsOnline (net.NewBlock h) name hkey
  · intro l
    refine ⟨(net.NewBlockLatency l).NodeIsOnline name, rfl, ?_⟩
    exact TMMonitor.statusOf_NodeIsOnline (net.NewBlockLatency l) name hkey
  · exact ⟨net.NodeIsDown name, rfl, TMMonitor.statusOf_NodeIsDown net name hkey⟩
  · exact ⟨net.NodeIsOnline name, rfl, TMMonitor.statusOf_NodeIsOnline net name hkey⟩
  · intro e
    cases e <;> simp [TMMonitor.listenStep]

/-- C6 witness: the listener-step behaviour evaluated on `testNet` (which
has an entry for node "a"): a timeout marks "a" down, a block of height 42
marks it online and advances the height to 42. -/
theorem C6_listener_step_witness :
    (TMMonitor.testNet.NodeIsDown "a").statusOf "a" = some false ∧
    (∃ n2, TMMonitor.listenStep "a" TMMonitor.testNet (.block 42) = some n2 ∧
      n2.statusOf "a" = some true ∧ n2.height = max TMMonitor.testNet.height 42) :=
  ⟨(C6_listener_step TMMonitor.testNet "a" rfl).1.2,
   (C6_listener_step TMMonitor.testNet "a" rfl).2.1 42⟩

namespace TMMonitor

lemma getLastD_eq_getLast :
    ∀ (l : List String) (d : String) (h : l ≠ []), l.getLastD d = l.getLast h
  | [_], _, _ => rfl
  | a :: b :: t, d, _ => by
      rw [List.getLastD_cons, List.getLast_cons (List.cons_ne_nil b t)]
      exact getLastD_eq_getLast (b :: t) a (List.cons_ne_nil b t)

lemma swapRemove_perm :
    ∀ (l : List String) (name : String), name ∈ l →
      (swapRemove l name).Perm (l.erase name) := by
  intro l
  induction l with
  | nil => intro name h; cases h
  | cons x xs ih =>
      intro name hmem
      by_cases hx : x = name
      · subst hx
        unfold swapRemove
        rw [List.indexOf_cons_self, List.erase_cons_head]
        cases xs with
        | nil => simp
        | cons y ys =>
            have hne : (y :: ys) ≠ ([] : List String) := List.cons_ne_nil y ys
            have hgl : (x :: y :: ys).getLastD "" = (y :: ys).getLast hne := by
              rw [List.getLastD_cons]
              exact getLastD_eq_getLast (y :: ys) x hne
            rw [hgl]
            show (((y :: ys).getLast hne) :: y :: ys).dropLast.Perm (y :: ys)
            rw [List.dropLast_cons_of_ne_nil hne]
            have hperm : (((y :: ys).getLast hne) :: (y :: ys).dropLast).Perm
                ((y :: ys).dropLast ++ [(y :: ys).getLast hne]) :=
              (List.perm_append_singleton _ _).symm
            rw [List.dropLast_append_getLast hne] at hperm
            exact hperm
      · have hxs : name ∈ xs := by
          rcases List.mem_cons.mp hmem with h | h
          · exact absurd h.symm hx
          · exact h
        have hne : xs ≠ [] := List.ne_nil_of_mem hxs
        unfold swapRemove
        rw [List.indexOf_cons_ne xs hx, List.getLastD_cons]
        rw [List.erase_cons_tail (by simpa using hx)]
        show (x :: xs.set (xs.indexOf name) (xs.getLastD x)).dropLast.Perm
          (x :: xs.erase name)
        have hsne : xs.set (xs.indexOf name) (xs.getLastD x) ≠ [] := by
          intro hc
          have hlen := congrArg List.length hc
          rw [List.length_set] at hlen
          exact hne (List.eq_nil_of_length_eq_zero hlen)
        rw [List.dropLast_cons_of_ne_nil hsne]
        refine List.Perm.cons x ?_
        have h1 : xs.getLastD x = xs.getLastD "" := by
          rw [getLastD_eq_getLast xs x hne, getLastD_eq_getLast xs "" hne]
        rw [h1]
        exact ih name hxs

lemma hasKey_iff_mem_keys (l : List (String × Bool)) (k : String) :
    hasKey l k = true ↔ k ∈ keys l := by
  constructor
  · intro h
    obtain ⟨p, hp, he⟩ := List.any_eq_true.mp h
    exact List.mem_map.mpr ⟨p, hp, by simpa using he⟩
  · intro h
    obtain ⟨p, hp, he⟩ := List.mem_map.mp h
    exact List.any_eq_true.mpr ⟨p, hp, by simpa using he⟩

lemma keys_setVal (l : List (String × Bool)) (k : String) (v : Bool) :
    keys (setVal l k v) = keys l := by
  induction l with
  | nil => rfl
  | cons p t ih =>
      by_cases hp : p.1 = k
      · simp [setVal, keys, hp] at ih ⊢
        exact ih
      · simp [setVal, keys, hp] at ih ⊢
        exact ih

lemma keys_filterNe (l : List (String × Bool)) (k : String) :
    keys (l.filter (fun p => !(p.1 == k))) =
      (keys l).filter (fun x => !(x == k)) := by
  induction l with
  | nil => rfl
  | cons p t ih =>
      by_cases hp : p.1 = k
      · simp [keys, List.filter_cons, hp] at ih ⊢
        exact ih
      · simp [keys, List.filter_cons, hp] at ih ⊢
        exact ih

lemma filterNe_eq_erase :
    ∀ (l : List String) (k : String), l.Nodup →
      l.filter (fun x => !(x == k)) = l.erase k := by
  intro l
  induction l with
  | nil => intro k _; rfl
  | cons x xs ih =>
      intro k hnd
      rw [List.nodup_cons] at hnd
      obtain ⟨hx, hxs⟩ := hnd
      by_cases hxk : x = k
      · subst hxk
        rw [List.erase_cons_head]
        rw [List.filter_cons_of_neg (by simp)]
        apply List.filter_eq_self.mpr
        intro a ha
        simp only [Bool.not_eq_true', beq_eq_false_iff_ne, ne_eq]
        intro hak
        exact hx (hak ▸ ha)
      · rw [List.erase_cons_tail (by simpa using hxk)]
        rw [List.filter_cons_of_pos (by simpa using hxk)]
        rw [ih k hxs]

lemma inv_mon {s : MonitorState} {name : String} (hInv : Inv s)
    (hfresh : name ∉ s.nodes) : Inv (applyMOp s (.mon name true)) := by
  obtain ⟨hnd, hnet, hquit⟩ := hInv
  have hkeyf : hasKey s.network.nodes name = false := by
    rw [Bool.eq_false_iff]
    intro hk
    exact hfresh (hnet.mem_iff.mp ((hasKey_iff_mem_keys _ _).mp hk))
  have hcont : s.nodeQuit.contains name = false := by
    rw [Bool.eq_false_iff]
    intro hc
    exact hfresh (hquit.mem_iff.mp (List.elem_iff.mp hc))
  have happ : (s.nodes ++ [name]).Nodup := by
    rw [(List.perm_append_singleton name s.nodes).nodup_iff, List.nodup_cons]
    exact ⟨hfresh, hnd⟩
  refine ⟨happ, ?_, ?_⟩
  · show (keys (s.network.NewNode name).nodes).Perm (s.nodes ++ [name])
    unfold Network.NewNode
    rw [hkeyf]
    simp only [Bool.false_eq_true, if_false]
    show (keys (s.network.nodes ++ [(name, false)])).Perm (s.nodes ++ [name])
    have : keys (s.network.nodes ++ [(name, false)]) =
        keys s.network.nodes ++ [name] := by simp [keys]
    rw [this]
    exact hnet.append_right [name]
  · show (if s.nodeQuit.contains name then s.nodeQuit
        else s.nodeQuit ++ [name]).Perm (s.nodes ++ [name])
    rw [hcont]
    simp only [Bool.false_eq_true, if_false]
    exact hquit.append_right [name]

lemma inv_unmon {s : MonitorState} {name : String} (hInv : Inv s)
    (hmem : name ∈ s.nodes) : Inv (applyMOp s (.unmon name)) := by
  obtain ⟨hnd, hnet, hquit⟩ := hInv
  have hnodes : (swapRemove s.nodes name).Perm (s.nodes.erase name) :=
    swapRemove_perm s.nodes name hmem
  have hndE : (s.nodes.erase name).Nodup := hnd.erase name
  have hkeysnd : (keys s.network.nodes).Nodup := hnet.nodup_iff.mpr hnd
  have hquitnd : s.nodeQuit.Nodup := hquit.nodup_iff.mpr hnd
  refine ⟨hnodes.nodup_iff.mpr hndE, ?_, ?_⟩
  · show (keys (s.network.NodeDeleted name).nodes).Perm (swapRemove s.nodes name)
    unfold Network.NodeDeleted
    show (keys (s.network.nodes.filter (fun p => !(p.1 == name)))).Perm _
    rw [keys_filterNe, filterNe_eq_erase _ _ hkeysnd]
    exact ((hnet.erase name).trans hnodes.symm)
  · show (s.nodeQuit.filter (fun x => !(x == name))).Perm (swapRemove s.nodes name)
    rw [filterNe_eq_erase _ _ hquitnd]
    exact ((hquit.erase name).trans hnodes.symm)

lemma wf_run_inv :
    ∀ (ops : List MOp) (s : MonitorState), Inv s →
      wellFormed s ops = true → Inv (runOps s ops) := by
  intro ops
  induction ops with
  | nil => intro s h _; simpa [runOps] using h
  | cons op rest ih =>
      intro s hInv hwf
      show Inv (List.foldl applyMOp s (op :: rest))
      rw [List.foldl_cons]
      cases op with
      | mon name ok =>
          unfold wellFormed at hwf
          rw [Bool.and_eq_true, Bool.and_eq_true] at hwf
          obtain ⟨⟨hok, hfr⟩, hrest⟩ := hwf
          have hok' : ok = true := hok
          subst hok'
          have hfresh : name ∉ s.nodes := by
            intro hc
            have hcontains : s.nodes.contains name = true := List.elem_iff.mpr hc
            rw [hcontains] at hfr
            simp at hfr
          exact ih _ (inv_mon hInv hfresh) hrest
      | unmon name =>
          unfold wellFormed at hwf
          rw [Bool.and_eq_true] at hwf
          obtain ⟨hm, hrest⟩ := hwf
          exact ih _ (inv_unmon hInv (List.elem_iff.mp hm)) hrest

end TMMonitor

/-- C1 counterexample: the claim quantifies over EVERY sequence of
`Monitor`/`Unmonitor` operations, but after a single `Monitor` call whose
`Start` fails, the node's name is in the tracked list while Network has no
entry at all — an orphaned tracked name, so the sets are not in 1:1
correspondence. -/
theorem C1_correspondence_counterexample :
    "a" ∈ (TMMonitor.runOps TMMonitor.initMonitor
      [TMMonitor.MOp.mon "a" false]).nodes ∧
    TMMonitor.keys (TMMonitor.runOps TMMonitor.initMonitor
      [TMMonitor.MOp.mon "a" false]).network.nodes = [] ∧
    ¬ (TMMonitor.keys (TMMonitor.runOps TMMonitor.initMonitor
        [TMMonitor.MOp.mon "a" false]).network.nodes).Perm
      (TMMonitor.runOps TMMonitor.initMonitor
        [TMMonitor.MOp.mon "a" false]).nodes := by
  refine ⟨?_, rfl, ?_⟩
  · simp [TMMonitor.runOps, TMMonitor.applyMOp, TMMonitor.monitorFn,
      TMMonitor.initMonitor]
  · intro hperm
    have := hperm.length_eq
    simp [TMMonitor.runOps, TMMonitor.applyMOp, TMMonitor.monitorFn,
      TMMonitor.initMonitor, TMMonitor.keys] at this

/-- C1 (amended): for every sequence of `Monitor`/`Unmonitor` operations in
which each registration's `Start` succeeds with a name not currently
tracked and each removal names a tracked node, the tracked node list stays
duplicate-free and both the Network entry keys and the nodeQuit keys remain
a permutation of it: each tracked name has exactly one Network entry,
created on admission and deleted on removal, with no orphans and no
duplicates. -/
theorem C1_tracked_network_correspondence :
    ∀ ops : List TMMonitor.MOp,
      TMMonitor.wellFormed TMMonitor.initMonitor ops = true →
      ((TMMonitor.runOps TMMonitor.initMonitor ops).nodes.Nodup ∧
       (TMMonitor.keys
         (TMMonitor.runOps TMMonitor.initMonitor ops).network.nodes).Perm
         (TMMonitor.runOps TMMonitor.initMonitor ops).nodes ∧
       (TMMonitor.runOps TMMonitor.initMonitor ops).nodeQuit.Perm
         (TMMonitor.runOps TMMonitor.initMonitor ops).nodes) :=
  fun ops h =>
    TMMonitor.wf_run_inv ops TMMonitor.initMonitor
      ⟨List.nodup_nil, List.Perm.refl _, List.Perm.refl _⟩ h

/-- C1 witness: admit "a", admit "b", remove "a" — a well-formed sequence;
afterwards the tracked list, the Network entries and the nodeQuit keys all
correspond 1:1. -/
theorem C1_tracked_network_correspondence_witness :
    ((TMMonitor.runOps TMMonitor.initMonitor
        [TMMonitor.MOp.mon "a" true, TMMonitor.MOp.mon "b" true,
         TMMonitor.MOp.unmon "a"]).nodes.Nodup ∧
     (TMMonitor.keys (TMMonitor.runOps TMMonitor.initMonitor
        [TMMonitor.MOp.mon "a" true, TMMonitor.MOp.mon "b" true,
         TMMonitor.MOp.unmon "a"]).network.nodes).Perm
       (TMMonitor.runOps TMMonitor.initMonitor
        [TMMonitor.MOp.mon "a" true, TMMonitor.MOp.mon "b" true,
         TMMonitor.MOp.unmon "a"]).nodes ∧
     (TMMonitor.runOps TMMonitor.initMonitor
        [TMMonitor.MOp.mon "a" true, TMMonitor.MOp.mon "b" true,
         TMMonitor.MOp.unmon "a"]).nodeQuit.Perm
       (TMMonitor.runOps TMMonitor.initMonitor
        [TMMonitor.MOp.mon "a" true, TMMonitor.MOp.mon "b" true,
         TMMonitor.MOp.unmon "a"]).nodes) :=
  C1_tracked_network_correspondence
    [TMMonitor.MOp.mon "a" true, TMMonitor.MOp.mon "b" true,
     TMMonitor.MOp.unmon "a"] (by decide)
